import Mathlib

/-!
Shallow embedding of the core of the session-desktop message delivery queue
(`src/ts/session/sending/MessageQueue.ts`) and of the libsession config
utilities (`LibSessionUtil`: wrapper initialization, pending config changes,
kind/variant mapping, markAsPushed).

External collaborators (the transport, the merge engine, the durable store)
are modelled as oracle parameters; the control flow of the embedded functions
is translated directly from the TypeScript source.  Observable actions
(handler invocations, cache mutations, endpoint calls) are recorded as
explicit event lists so that theorems can speak about what was and was not
invoked, and in which order.
-/

/-! ## Open-group sends (sendToOpenGroupV2 / sendToOpenGroupV2BlindedRequest) -/

/-- An open-group visible message: its identifier and whether `message.reaction`
is set (the source only tests the field for truthiness). -/
structure OpenGroupVisibleMessage where
  identifier : String
  hasReaction : Bool
deriving DecidableEq

/-- Observable events of an open-group send. -/
inductive OGEvent
  /-- `sendSogsReactionOnionV4` was invoked. -/
  | reactionEndpoint
  /-- the generic transport `MessageSender.sendToOpenGroupV2[BlindedRequest]` was invoked. -/
  | transportSend
  /-- `MessageSentHandler.handlePublicMessageSentSuccess(identifier, serverId, serverTimestamp)`. -/
  | publicSuccess (id : String) (serverId : Int) (ts : Int)
  /-- `MessageSentHandler.handleMessageSentFailure(message, e)`. -/
  | sentFailure (id : String)
deriving DecidableEq

/-- Result of the transport call: a settled response carrying the (possibly
absent) server-assigned id and the server timestamp, or a rejection. -/
inductive OGTransportResult
  | ok (serverId : Option Int) (sentTimestamp : Int)
  | err
deriving DecidableEq

/-- The guard `!serverId || serverId === -1` of the source: JavaScript
truthiness makes an absent id and the id `0` falsy, and `-1` is tested
explicitly; every other integer passes the guard. -/
def invalidServerId : Option Int → Bool
  | none => true
  | some n => n == 0 || n == -1

/-- `MessageQueue.sendToOpenGroupV2`.  `reactionOk` tells whether the reaction
endpoint call settles successfully; `transport` is the generic transport
result.  Returns the list of observable events in execution order. -/
def sendToOpenGroupV2 (message : OpenGroupVisibleMessage) (reactionOk : Bool)
    (transport : OGTransportResult) : List OGEvent :=
  if message.hasReaction then
    if reactionOk then
      [OGEvent.reactionEndpoint]
    else
      [OGEvent.reactionEndpoint, OGEvent.sentFailure message.identifier]
  else
    match transport with
    | OGTransportResult.err => [OGEvent.transportSend, OGEvent.sentFailure message.identifier]
    | OGTransportResult.ok serverId ts =>
      if invalidServerId serverId then
        [OGEvent.transportSend, OGEvent.sentFailure message.identifier]
      else
        [OGEvent.transportSend, OGEvent.publicSuccess message.identifier (serverId.getD 0) ts]

/-- `MessageQueue.sendToOpenGroupV2BlindedRequest`.  `recipientIsBlinded` is
`PubKey.isBlinded(recipientBlindedId)`; a non-blinded recipient throws before
any transport call and the `catch` invokes the failure handler. -/
def sendToOpenGroupV2BlindedRequest (message : OpenGroupVisibleMessage)
    (recipientIsBlinded : Bool) (transport : OGTransportResult) : List OGEvent :=
  if !recipientIsBlinded then
    [OGEvent.sentFailure message.identifier]
  else
    match transport with
    | OGTransportResult.err => [OGEvent.transportSend, OGEvent.sentFailure message.identifier]
    | OGTransportResult.ok serverId ts =>
      if invalidServerId serverId then
        [OGEvent.transportSend, OGEvent.sentFailure message.identifier]
      else
        [OGEvent.transportSend, OGEvent.publicSuccess message.identifier (serverId.getD 0) ts]

/-- C2, counterexample: the claim says every non-positive server id (for
example `-2`) is treated as a protocol violation; but for server id `-2` the
guard `!serverId || serverId === -1` passes, the success handler is invoked
and the failure handler is not. -/
theorem sendToOpenGroupV2_neg2_accepted :
    OGEvent.publicSuccess "m1" (-2) 5 ∈
        sendToOpenGroupV2 ⟨"m1", false⟩ true (OGTransportResult.ok (some (-2)) 5) ∧
      OGEvent.sentFailure "m1" ∉
        sendToOpenGroupV2 ⟨"m1", false⟩ true (OGTransportResult.ok (some (-2)) 5) := by
  decide

/-- C2, amended: on the non-reaction path of `sendToOpenGroupV2` and on the
blinded-recipient path of `sendToOpenGroupV2BlindedRequest`, a server id that
is absent, `0`, or exactly `-1` makes the send fail: the failure handler is
invoked and the success handler is never invoked.  (Other non-positive ids
such as `-2` are accepted as success.) -/
theorem openGroup_invalid_serverId (m : OpenGroupVisibleMessage) (rOk : Bool)
    (serverId : Option Int) (ts : Int)
    (hm : m.hasReaction = false) (hs : invalidServerId serverId = true) :
    sendToOpenGroupV2 m rOk (OGTransportResult.ok serverId ts) =
        [OGEvent.transportSend, OGEvent.sentFailure m.identifier] ∧
      sendToOpenGroupV2BlindedRequest m true (OGTransportResult.ok serverId ts) =
        [OGEvent.transportSend, OGEvent.sentFailure m.identifier] := by
  constructor <;> simp [sendToOpenGroupV2, sendToOpenGroupV2BlindedRequest, hm, hs]

/-- Witness for `openGroup_invalid_serverId` at server id `-1`. -/
theorem openGroup_invalid_serverId_witness :
    sendToOpenGroupV2 ⟨"m1", false⟩ true (OGTransportResult.ok (some (-1)) 7) =
        [OGEvent.transportSend, OGEvent.sentFailure "m1"] ∧
      sendToOpenGroupV2BlindedRequest ⟨"m1", false⟩ true (OGTransportResult.ok (some (-1)) 7) =
        [OGEvent.transportSend, OGEvent.sentFailure "m1"] :=
  openGroup_invalid_serverId ⟨"m1", false⟩ true (some (-1)) 7 rfl rfl

/-- C10: when the message carries a reaction, `sendToOpenGroupV2` only invokes
the reaction endpoint and returns right after it (with the failure handler on
a rejected reaction call): the generic transport is never invoked, no server-id
validation happens, and the public-message success handler is never invoked. -/
theorem sendToOpenGroupV2_reaction_path (m : OpenGroupVisibleMessage) (rOk : Bool)
    (transport : OGTransportResult) (hm : m.hasReaction = true) :
    sendToOpenGroupV2 m rOk transport =
        (if rOk then [OGEvent.reactionEndpoint]
          else [OGEvent.reactionEndpoint, OGEvent.sentFailure m.identifier]) ∧
      OGEvent.transportSend ∉ sendToOpenGroupV2 m rOk transport ∧
      ∀ i s t, OGEvent.publicSuccess i s t ∉ sendToOpenGroupV2 m rOk transport := by
  refine ⟨by simp [sendToOpenGroupV2, hm], ?_, ?_⟩ <;>
    simp [sendToOpenGroupV2, hm] <;> cases rOk <;> simp

/-- Witness for `sendToOpenGroupV2_reaction_path` on a concrete reaction send. -/
theorem sendToOpenGroupV2_reaction_path_witness :
    sendToOpenGroupV2 ⟨"m2", true⟩ true (OGTransportResult.ok (some 4) 9) =
        [OGEvent.reactionEndpoint] ∧
      OGEvent.transportSend ∉
        sendToOpenGroupV2 ⟨"m2", true⟩ true (OGTransportResult.ok (some 4) 9) ∧
      ∀ i s t, OGEvent.publicSuccess i s t ∉
        sendToOpenGroupV2 ⟨"m2", true⟩ true (OGTransportResult.ok (some 4) 9) := by
  have h := sendToOpenGroupV2_reaction_path ⟨"m2", true⟩ true
    (OGTransportResult.ok (some 4) 9) rfl
  simpa using h

/-! ## The durable message queue (process / processPending / sendSyncMessage /
sendToPubKeyNonDurably) -/

/-- An outgoing content message, reduced to the discriminating attributes the
queue inspects: the identifier, whether `syncTarget` is set, and the dynamic
class tests that matter (`instanceof UnsendMessage`,
`instanceof ClosedGroupNewMessage`). -/
structure OutgoingMessage where
  identifier : String
  hasSyncTarget : Bool
  isUnsendMessage : Bool
  isClosedGroupNewMessage : Bool
deriving DecidableEq

/-- Modelled from the spec: `MessageSender.isSyncMessage` is not among the
provided sources.  The spec ("self-sends are only legitimate for sync
messages"; "We allow a message for ourselves only if it's a
ClosedGroupNewMessage, or a message with a syncTarget set" in the source
comment) makes it recognize closed-group-new messages, unsend messages and
messages with a `syncTarget`. -/
def isSyncMessage (m : OutgoingMessage) : Bool :=
  m.isClosedGroupNewMessage || m.isUnsendMessage || m.hasSyncTarget

/-- Process-wide queue state: the pending message cache (destination paired
with each cached message, in insertion order), the side table of identifiers
with a registered completion callback, and the per-destination job queues
(as the set of (destination, identifier) pairs currently enqueued). -/
structure QueueState where
  pending : List (String × OutgoingMessage)
  callbacks : List String
  jobQueue : List (String × String)
deriving DecidableEq

/-- Identifiers currently in the pending cache. -/
def pendingIds (st : QueueState) : List String :=
  st.pending.map (fun p => p.2.identifier)

/-- `PendingMessageCache.getForDevice`: the cached messages of one
destination, in insertion order. -/
def getForDevice (st : QueueState) (device : String) : List OutgoingMessage :=
  (st.pending.filter (fun p => p.1 == device)).map (fun p => p.2)

/-- Observable events of the durable queue. -/
inductive QEvent
  /-- `jobQueue.addWithId(messageId, job)` accepted a new job. -/
  | jobEnqueued (id : String)
  /-- `MessageSender.send(message, ...)` was invoked. -/
  | sendAttempt (id : String)
  /-- `MessageSentHandler.handleMessageSentSuccess(message, ts, ...)`. -/
  | successHandler (id : String) (ts : Nat)
  /-- `MessageSentHandler.handleMessageSentFailure(message, error)`. -/
  | failureHandler (id : String)
  /-- the registered per-message callback was invoked. -/
  | callbackInvoked (id : String)
  /-- `pendingMessageCache.remove(message)`. -/
  | cacheRemove (id : String)
  /-- `pendingMessageCache.add(destination, message, ...)`. -/
  | cacheAdd (dest : String) (id : String)
  /-- the self-send was dropped ("Dropping message in process() to be sent to ourself"). -/
  | droppedSelfSend (id : String)
deriving DecidableEq

/-- Outcome of one transport send (`MessageSender.send`). -/
inductive SendOutcome
  | success (ts : Nat)
  | failure
deriving DecidableEq

/-- The job body built in `processPending`: send via transport; on success run
the success handler, invoke any registered callback and clear it; on failure
run the failure handler; in a `finally` step remove the message from the
pending cache. -/
def runJob (m : OutgoingMessage) (outcome : SendOutcome) (st : QueueState) :
    List QEvent × QueueState :=
  match outcome with
  | SendOutcome.success ts =>
    ([QEvent.sendAttempt m.identifier, QEvent.successHandler m.identifier ts] ++
        (if st.callbacks.contains m.identifier then [QEvent.callbackInvoked m.identifier]
          else []) ++
        [QEvent.cacheRemove m.identifier],
      { st with
          callbacks := st.callbacks.filter (fun c => c != m.identifier),
          pending := st.pending.filter (fun p => p.2.identifier != m.identifier) })
  | SendOutcome.failure =>
    ([QEvent.sendAttempt m.identifier, QEvent.failureHandler m.identifier,
        QEvent.cacheRemove m.identifier],
      { st with
          pending := st.pending.filter (fun p => p.2.identifier != m.identifier) })

/-- The loop body of `processPending` over the snapshot of cached messages:
a message whose identifier is already in this destination's job queue is
skipped; otherwise its job is enqueued (and, the queue being strictly serial,
runs to completion before the next job). -/
def processPendingLoop (device : String) (oracle : OutgoingMessage → SendOutcome) :
    List OutgoingMessage → QueueState → List QEvent × QueueState
  | [], st => ([], st)
  | m :: rest, st =>
    if st.jobQueue.contains (device, m.identifier) then
      processPendingLoop device oracle rest st
    else
      let st1 := { st with jobQueue := st.jobQueue ++ [(device, m.identifier)] }
      let job := runJob m (oracle m) st1
      let next := processPendingLoop device oracle rest job.2
      (QEvent.jobEnqueued m.identifier :: job.1 ++ next.1, next.2)

/-- `MessageQueue.processPending(device)`: reads the cached messages of the
device once, then drains them through the device's job queue. -/
def processPending (device : String) (oracle : OutgoingMessage → SendOutcome)
    (st : QueueState) : List QEvent × QueueState :=
  processPendingLoop device oracle (getForDevice st device) st

/-- `MessageQueue.process` (the shared internal path): a self-send that is not
a recognized sync message is dropped; otherwise the message is added to the
pending cache (registering the callback when one is given) and
`processPending` is kicked off for the destination. -/
def process (us dest : String) (m : OutgoingMessage) (hasCb : Bool)
    (oracle : OutgoingMessage → SendOutcome) (st : QueueState) :
    List QEvent × QueueState :=
  if dest == us && !isSyncMessage m then
    ([QEvent.droppedSelfSend m.identifier], st)
  else
    let st1 := { st with
      pending := st.pending ++ [(dest, m)],
      callbacks := if hasCb then st.callbacks ++ [m.identifier] else st.callbacks }
    let r := processPending dest oracle st1
    (QEvent.cacheAdd dest m.identifier :: r.1, r.2)

/-- `MessageQueue.sendSyncMessage`: no-op on an absent message; a message that
is neither an `UnsendMessage` nor carries a `syncTarget` is rejected; otherwise
the message goes down the shared `process` path with the destination forced to
our own pubkey. -/
def sendSyncMessage (us : String) (message : Option OutgoingMessage) (hasCb : Bool)
    (oracle : OutgoingMessage → SendOutcome) (st : QueueState) :
    Except String (List QEvent × QueueState) :=
  match message with
  | none => Except.ok ([], st)
  | some m =>
    if !m.isUnsendMessage && !m.hasSyncTarget then
      Except.error "Invalid message given to sendSyncMessage"
    else
      Except.ok (process us us m hasCb oracle st)

/-- Observable events of `sendToPubKeyNonDurably`. -/
inductive NDEvent
  /-- `MessageSender.send(rawMessage)` was invoked. -/
  | ndSend
  /-- `MessageSentHandler.handleMessageSentSuccess(rawMessage, ts, ...)`. -/
  | ndSuccessHandler (ts : Nat)
  /-- `MessageSentHandler.handleMessageSentFailure(rawMessage, error)`. -/
  | ndFailureHandler
deriving DecidableEq

/-- `MessageQueue.sendToPubKeyNonDurably`: `convOk` tells whether
`MessageUtils.toRawMessage` succeeds (before it does, `rawMessage` is
undefined, so the catch block skips the failure handler); `send` is the
transport outcome.  Returns the events and the returned value
(`effectiveTimestamp` or `null`). -/
def sendToPubKeyNonDurably (convOk : Bool) (send : SendOutcome) :
    List NDEvent × Option Nat :=
  if !convOk then ([], none)
  else
    match send with
    | SendOutcome.success ts => ([NDEvent.ndSend, NDEvent.ndSuccessHandler ts], some ts)
    | SendOutcome.failure => ([NDEvent.ndSend, NDEvent.ndFailureHandler], none)

/-- C4: a message whose destination is our own pubkey and which is not a
recognized sync message is silently dropped by `process`: no error, nothing
added to the pending cache, the transport never invoked. -/
theorem process_self_send_dropped (us : String) (m : OutgoingMessage) (hasCb : Bool)
    (oracle : OutgoingMessage → SendOutcome) (st : QueueState)
    (h : isSyncMessage m = false) :
    process us us m hasCb oracle st = ([QEvent.droppedSelfSend m.identifier], st) := by
  simp [process, h]

/-- Witness for `process_self_send_dropped` on a concrete non-sync message. -/
theorem process_self_send_dropped_witness :
    process "us" "us" ⟨"id1", false, false, false⟩ true (fun _ => SendOutcome.failure)
        ⟨[], [], []⟩ =
      ([QEvent.droppedSelfSend "id1"], ⟨[], [], []⟩) :=
  process_self_send_dropped "us" ⟨"id1", false, false, false⟩ true
    (fun _ => SendOutcome.failure) ⟨[], [], []⟩ rfl

/-- C7: `sendSyncMessage` is a no-op without a message; errs on a message that
is neither an unsend message nor carries a syncTarget; and otherwise admits the
message to the shared `process` path with destination forced to our own
identity, where — being a recognized sync message — it bypasses the self-send
suppression and reaches the pending cache. -/
theorem sendSyncMessage_spec (us : String) (hasCb : Bool)
    (oracle : OutgoingMessage → SendOutcome) (st : QueueState) :
    sendSyncMessage us none hasCb oracle st = Except.ok ([], st) ∧
      (∀ m : OutgoingMessage, m.isUnsendMessage = false → m.hasSyncTarget = false →
        sendSyncMessage us (some m) hasCb oracle st =
          Except.error "Invalid message given to sendSyncMessage") ∧
      (∀ m : OutgoingMessage, m.isUnsendMessage = true ∨ m.hasSyncTarget = true →
        sendSyncMessage us (some m) hasCb oracle st =
            Except.ok (process us us m hasCb oracle st) ∧
          QEvent.cacheAdd us m.identifier ∈ (process us us m hasCb oracle st).1) := by
  refine ⟨rfl, ?_, ?_⟩
  · intro m h1 h2
    simp [sendSyncMessage, h1, h2]
  · intro m hm
    have hsync : isSyncMessage m = true := by
      rcases hm with h | h <;> simp [isSyncMessage, h]
    have hok : (!m.isUnsendMessage && !m.hasSyncTarget) = false := by
      rcases hm with h | h <;> simp [h]
    constructor
    · simp [sendSyncMessage, hok]
    · simp [process, hsync]

/-- Witness for `sendSyncMessage_spec`: the no-op case and a concrete unsend
message admitted to the process path. -/
theorem sendSyncMessage_spec_witness :
    sendSyncMessage "us" none false (fun _ => SendOutcome.failure) ⟨[], [], []⟩ =
        Except.ok ([], ⟨[], [], []⟩) ∧
      sendSyncMessage "us" (some ⟨"id2", false, true, false⟩) false
          (fun _ => SendOutcome.failure) ⟨[], [], []⟩ =
        Except.ok (process "us" "us" ⟨"id2", false, true, false⟩ false
          (fun _ => SendOutcome.failure) ⟨[], [], []⟩) := by
  have h := sendSyncMessage_spec "us" false (fun _ => SendOutcome.failure) ⟨[], [], []⟩
  exact ⟨h.1, (h.2.2 ⟨"id2", false, true, false⟩ (Or.inl rfl)).1⟩

/-- C9: if the message-to-raw-message conversion itself fails,
`sendToPubKeyNonDurably` returns `null` without invoking the failure handler;
the failure handler can only ever be invoked once the raw message exists and
the transport send fails (and the result is then `null` too). -/
theorem sendToPubKeyNonDurably_spec (convOk : Bool) (send : SendOutcome) :
    (convOk = false → sendToPubKeyNonDurably convOk send = ([], none)) ∧
      (NDEvent.ndFailureHandler ∈ (sendToPubKeyNonDurably convOk send).1 →
        convOk = true ∧ send = SendOutcome.failure ∧
          sendToPubKeyNonDurably convOk send =
            ([NDEvent.ndSend, NDEvent.ndFailureHandler], none)) := by
  constructor
  · intro h
    simp [sendToPubKeyNonDurably, h]
  · intro h
    cases convOk with
    | false => simp [sendToPubKeyNonDurably] at h
    | true =>
      cases send with
      | success ts => simp [sendToPubKeyNonDurably] at h
      | failure => exact ⟨rfl, rfl, rfl⟩

/-- Witness for `sendToPubKeyNonDurably_spec`: a failed conversion returns
`null` with no events at all. -/
theorem sendToPubKeyNonDurably_spec_witness :
    sendToPubKeyNonDurably false SendOutcome.failure = ([], none) :=
  (sendToPubKeyNonDurably_spec false SendOutcome.failure).1 rfl

/-! ## C3: the job built by processPending -/

/-- Does this queue event concern the message with identifier `i`? -/
def aboutId (i : String) : QEvent → Bool
  | QEvent.jobEnqueued j => i == j
  | QEvent.sendAttempt j => i == j
  | QEvent.successHandler j _ => i == j
  | QEvent.failureHandler j => i == j
  | QEvent.callbackInvoked j => i == j
  | QEvent.cacheRemove j => i == j
  | QEvent.cacheAdd _ j => i == j
  | QEvent.droppedSelfSend j => i == j

theorem contains_eq_false_of_not_mem {α} [BEq α] [LawfulBEq α] {l : List α} {a : α}
    (h : a ∉ l) : l.contains a = false := by
  by_contra hc
  simp only [Bool.not_eq_false] at hc
  exact h (List.elem_iff.mp hc)

theorem contains_congr {α} [BEq α] [LawfulBEq α] {l1 l2 : List α} {a : α}
    (h : a ∈ l1 ↔ a ∈ l2) : l1.contains a = l2.contains a := by
  by_cases hm : a ∈ l1
  · have h1 : l1.contains a = true := List.elem_iff.mpr hm
    have h2 : l2.contains a = true := List.elem_iff.mpr (h.mp hm)
    rw [h1, h2]
  · have h1 : l1.contains a = false := contains_eq_false_of_not_mem hm
    have h2 : l2.contains a = false := contains_eq_false_of_not_mem fun hx => hm (h.mpr hx)
    rw [h1, h2]

theorem mem_filter_ne (l : List String) (a i : String) (h : a ≠ i) :
    i ∈ l.filter (fun c => c != a) ↔ i ∈ l := by
  simp only [List.mem_filter, bne_iff_ne]
  exact ⟨fun hx => hx.1, fun h1 => ⟨h1, fun he => h he.symm⟩⟩

theorem mem_pendingIds_filter (pend : List (String × OutgoingMessage)) (a i : String)
    (h : a ≠ i) :
    i ∈ (pend.filter (fun p => p.2.identifier != a)).map (fun p => p.2.identifier) ↔
      i ∈ pend.map (fun p => p.2.identifier) := by
  simp only [List.mem_map, List.mem_filter, bne_iff_ne]
  constructor
  · rintro ⟨p, ⟨hp, _⟩, rfl⟩
    exact ⟨p, hp, rfl⟩
  · rintro ⟨p, hp, rfl⟩
    exact ⟨p, ⟨hp, fun he => h he.symm⟩, rfl⟩

/-- A job for a different identifier produces no events about `i` and leaves
the `i`-relevant parts of the state untouched. -/
theorem runJob_other (m : OutgoingMessage) (o : SendOutcome) (st : QueueState) (i : String)
    (h : m.identifier ≠ i) :
    (runJob m o st).1.filter (aboutId i) = [] ∧
      (i ∈ (runJob m o st).2.callbacks ↔ i ∈ st.callbacks) ∧
      (i ∈ pendingIds (runJob m o st).2 ↔ i ∈ pendingIds st) ∧
      (runJob m o st).2.jobQueue = st.jobQueue := by
  have hb : (i == m.identifier) = false := by
    simp only [beq_eq_false_iff_ne]
    exact h.symm
  cases o with
  | success ts =>
    refine ⟨?_, ?_, ?_, rfl⟩
    · cases hc : st.callbacks.contains m.identifier <;>
        simp [runJob, aboutId, hb, hc]
    · simpa [runJob] using mem_filter_ne st.callbacks m.identifier i h
    · simpa [runJob, pendingIds] using mem_pendingIds_filter st.pending m.identifier i h
  | failure =>
    refine ⟨?_, ?_, ?_, rfl⟩
    · simp [runJob, aboutId, hb]
    · simp [runJob]
    · simpa [runJob, pendingIds] using mem_pendingIds_filter st.pending m.identifier i h

theorem processPendingLoop_cons_skip (device : String) (oracle : OutgoingMessage → SendOutcome)
    (m : OutgoingMessage) (rest : List OutgoingMessage) (st : QueueState)
    (hq : st.jobQueue.contains (device, m.identifier) = true) :
    processPendingLoop device oracle (m :: rest) st =
      processPendingLoop device oracle rest st := by
  have hmem : (device, m.identifier) ∈ st.jobQueue := List.elem_iff.mp hq
  simp [processPendingLoop, hq, hmem]

theorem processPendingLoop_cons_run (device : String) (oracle : OutgoingMessage → SendOutcome)
    (m : OutgoingMessage) (rest : List OutgoingMessage) (st : QueueState)
    (hq : st.jobQueue.contains (device, m.identifier) = false) :
    processPendingLoop device oracle (m :: rest) st =
      (QEvent.jobEnqueued m.identifier ::
          (runJob m (oracle m)
            { st with jobQueue := st.jobQueue ++ [(device, m.identifier)] }).1 ++
          (processPendingLoop device oracle rest
            (runJob m (oracle m)
              { st with jobQueue := st.jobQueue ++ [(device, m.identifier)] }).2).1,
        (processPendingLoop device oracle rest
          (runJob m (oracle m)
            { st with jobQueue := st.jobQueue ++ [(device, m.identifier)] }).2).2) := by
  have hnot : (device, m.identifier) ∉ st.jobQueue := by
    intro hx
    have hc : st.jobQueue.contains (device, m.identifier) = true := List.elem_iff.mpr hx
    rw [hc] at hq
    simp at hq
  simp [processPendingLoop, hq, hnot]

/-- Draining messages none of which carries identifier `i` produces no events
about `i` and preserves the `i`-relevant state. -/
theorem processPendingLoop_other (device : String) (oracle : OutgoingMessage → SendOutcome)
    (i : String) (l : List OutgoingMessage) :
    ∀ st : QueueState, (∀ m ∈ l, m.identifier ≠ i) →
      (processPendingLoop device oracle l st).1.filter (aboutId i) = [] ∧
        (i ∈ (processPendingLoop device oracle l st).2.callbacks ↔ i ∈ st.callbacks) ∧
        (i ∈ pendingIds (processPendingLoop device oracle l st).2 ↔ i ∈ pendingIds st) ∧
        ∀ dev : String,
          ((dev, i) ∈ (processPendingLoop device oracle l st).2.jobQueue ↔
            (dev, i) ∈ st.jobQueue) := by
  induction l with
  | nil =>
    intro st _
    simp [processPendingLoop]
  | cons m rest ih =>
    intro st h
    have hm : m.identifier ≠ i := h m (by simp)
    have hrest : ∀ m' ∈ rest, m'.identifier ≠ i := fun m' hm' => h m' (by simp [hm'])
    cases hq : st.jobQueue.contains (device, m.identifier) with
    | true =>
      rw [processPendingLoop_cons_skip device oracle m rest st hq]
      exact ih st hrest
    | false =>
      rw [processPendingLoop_cons_run device oracle m rest st hq]
      have hjob := runJob_other m (oracle m)
        { st with jobQueue := st.jobQueue ++ [(device, m.identifier)] } i hm
      have hloop := ih (runJob m (oracle m)
        { st with jobQueue := st.jobQueue ++ [(device, m.identifier)] }).2 hrest
      have hb : aboutId i (QEvent.jobEnqueued m.identifier) = false := by
        simp only [aboutId, beq_eq_false_iff_ne]
        exact hm.symm
      refine ⟨?_, ?_, ?_, ?_⟩
      · simp [List.filter_append, hb, hjob.1, hloop.1]
      · exact hloop.2.1.trans hjob.2.1
      · exact hloop.2.2.1.trans hjob.2.2.1
      · intro dev
        rw [hloop.2.2.2 dev, hjob.2.2.2]
        simp only [List.mem_append, List.mem_singleton, Prod.mk.injEq]
        constructor
        · rintro (h1 | ⟨_, h2⟩)
          · exact h1
          · exact absurd h2.symm hm
        · exact fun h1 => Or.inl h1

theorem processPendingLoop_append (device : String) (oracle : OutgoingMessage → SendOutcome)
    (l1 l2 : List OutgoingMessage) :
    ∀ st : QueueState,
      processPendingLoop device oracle (l1 ++ l2) st =
        ((processPendingLoop device oracle l1 st).1 ++
            (processPendingLoop device oracle l2
              (processPendingLoop device oracle l1 st).2).1,
          (processPendingLoop device oracle l2
            (processPendingLoop device oracle l1 st).2).2) := by
  induction l1 with
  | nil =>
    intro st
    simp [processPendingLoop]
  | cons m rest ih =>
    intro st
    cases hq : st.jobQueue.contains (device, m.identifier) with
    | true =>
      rw [List.cons_append, processPendingLoop_cons_skip device oracle m _ st hq,
        processPendingLoop_cons_skip device oracle m rest st hq, ih]
    | false =>
      rw [List.cons_append, processPendingLoop_cons_run device oracle m _ st hq,
        processPendingLoop_cons_run device oracle m rest st hq, ih]
      simp

/-- C3, amended: for a cached message of a destination whose identifier is not
already in that destination's job queue, `processPending` enqueues exactly one
job; after the transport send settles the job runs the success handler (and
then invokes and clears any registered per-message callback) on success, or
the failure handler on failure (a failed send leaves the callback registered
and uninvoked); in both cases the message is removed from the pending cache,
only after the job settles; and the job sends exactly once (it never retries
itself). -/
theorem processPending_job_semantics (device : String)
    (oracle : OutgoingMessage → SendOutcome) (st : QueueState) (m : OutgoingMessage)
    (l1 l2 : List OutgoingMessage)
    (hdev : getForDevice st device = l1 ++ m :: l2)
    (hpre : ∀ m' ∈ l1, m'.identifier ≠ m.identifier)
    (hpost : ∀ m' ∈ l2, m'.identifier ≠ m.identifier)
    (hq : (device, m.identifier) ∉ st.jobQueue) :
    (processPending device oracle st).1.filter (aboutId m.identifier) =
        QEvent.jobEnqueued m.identifier :: QEvent.sendAttempt m.identifier ::
          (match oracle m with
            | SendOutcome.success ts =>
              QEvent.successHandler m.identifier ts ::
                ((if st.callbacks.contains m.identifier
                    then [QEvent.callbackInvoked m.identifier] else []) ++
                  [QEvent.cacheRemove m.identifier])
            | SendOutcome.failure =>
              [QEvent.failureHandler m.identifier, QEvent.cacheRemove m.identifier]) ∧
      m.identifier ∉ pendingIds (processPending device oracle st).2 ∧
      ((∃ ts, oracle m = SendOutcome.success ts) →
        m.identifier ∉ (processPending device oracle st).2.callbacks) ∧
      (oracle m = SendOutcome.failure →
        (m.identifier ∈ (processPending device oracle st).2.callbacks ↔
          m.identifier ∈ st.callbacks)) := by
  unfold processPending
  rw [hdev, processPendingLoop_append]
  obtain ⟨ha1, ha2, ha3, ha4⟩ := processPendingLoop_other device oracle m.identifier l1 st hpre
  set r1 := processPendingLoop device oracle l1 st with hr1
  have hqf : r1.2.jobQueue.contains (device, m.identifier) = false :=
    contains_eq_false_of_not_mem fun hx => hq ((ha4 device).mp hx)
  rw [processPendingLoop_cons_run device oracle m l2 r1.2 hqf]
  set st1 : QueueState :=
    { r1.2 with jobQueue := r1.2.jobQueue ++ [(device, m.identifier)] } with hst1
  set job := runJob m (oracle m) st1 with hjob
  obtain ⟨hc1, hc2, hc3, hc4⟩ := processPendingLoop_other device oracle m.identifier l2 job.2 hpost
  have hcb : st1.callbacks.contains m.identifier = st.callbacks.contains m.identifier := by
    refine contains_congr ?_
    exact ha2
  have hself : (m.identifier == m.identifier) = true := by simp
  refine ⟨?_, ?_, ?_, ?_⟩
  · dsimp only
    rw [List.filter_append, ha1, List.nil_append, List.filter_append, hc1,
      List.append_nil, List.filter_cons]
    have hJE : aboutId m.identifier (QEvent.jobEnqueued m.identifier) = true := by
      simp [aboutId]
    rw [if_pos hJE]
    cases ho : oracle m with
    | success ts =>
      have hj1 : job.1 =
          [QEvent.sendAttempt m.identifier, QEvent.successHandler m.identifier ts] ++
            (if st.callbacks.contains m.identifier
              then [QEvent.callbackInvoked m.identifier] else []) ++
            [QEvent.cacheRemove m.identifier] := by
        rw [hjob, ho]
        simp only [runJob]
        rw [hcb]
      rw [hj1]
      cases hcs : st.callbacks.contains m.identifier with
      | false => simp [aboutId, hself, hcs]
      | true => simp [aboutId, hself, hcs]
    | failure =>
      have hj1 : job.1 = [QEvent.sendAttempt m.identifier, QEvent.failureHandler m.identifier,
          QEvent.cacheRemove m.identifier] := by
        rw [hjob, ho]
        simp only [runJob]
      rw [hj1]
      simp [aboutId, hself]
  · have h6 : m.identifier ∉ pendingIds job.2 := by
      cases ho : oracle m with
      | success ts =>
        simp [hjob, runJob, ho, pendingIds, List.mem_map, List.mem_filter, bne_iff_ne]
      | failure =>
        simp [hjob, runJob, ho, pendingIds, List.mem_map, List.mem_filter, bne_iff_ne]
    exact fun hx => h6 (hc3.mp hx)
  · rintro ⟨ts, ho⟩
    have h7 : m.identifier ∉ job.2.callbacks := by
      simp [hjob, runJob, ho, List.mem_filter, bne_iff_ne]
    exact fun hx => h7 (hc2.mp hx)
  · intro ho
    have h8 : m.identifier ∈ job.2.callbacks ↔ m.identifier ∈ st1.callbacks := by
      simp [hjob, runJob, ho]
    exact hc2.trans (h8.trans ha2)

/-- Witness for `processPending_job_semantics`: one cached message with a
registered callback, transport succeeds at timestamp 1000. -/
theorem processPending_job_semantics_witness :
    (processPending "d" (fun _ => SendOutcome.success 1000)
        ⟨[("d", ⟨"id0", false, false, false⟩)], ["id0"], []⟩).1.filter (aboutId "id0") =
        [QEvent.jobEnqueued "id0", QEvent.sendAttempt "id0",
          QEvent.successHandler "id0" 1000, QEvent.callbackInvoked "id0",
          QEvent.cacheRemove "id0"] ∧
      "id0" ∉ pendingIds (processPending "d" (fun _ => SendOutcome.success 1000)
        ⟨[("d", ⟨"id0", false, false, false⟩)], ["id0"], []⟩).2 ∧
      "id0" ∉ (processPending "d" (fun _ => SendOutcome.success 1000)
        ⟨[("d", ⟨"id0", false, false, false⟩)], ["id0"], []⟩).2.callbacks := by
  have h := processPending_job_semantics "d" (fun _ => SendOutcome.success 1000)
    ⟨[("d", ⟨"id0", false, false, false⟩)], ["id0"], []⟩ ⟨"id0", false, false, false⟩ [] []
    (by decide) (by simp) (by simp) (by simp)
  exact ⟨by simpa using h.1, h.2.1, h.2.2.1 ⟨1000, rfl⟩⟩

/-- C3, counterexample: the claim has the job invoke and clear the registered
per-message callback regardless of outcome; but on a failed send the job
settles (failure handler, cache removal) while the callback is neither invoked
nor cleared from the side table. -/
theorem processPending_failure_callback_not_cleared :
    QEvent.cacheRemove "id0" ∈ (processPending "d" (fun _ => SendOutcome.failure)
        ⟨[("d", ⟨"id0", false, false, false⟩)], ["id0"], []⟩).1 ∧
      QEvent.failureHandler "id0" ∈ (processPending "d" (fun _ => SendOutcome.failure)
        ⟨[("d", ⟨"id0", false, false, false⟩)], ["id0"], []⟩).1 ∧
      QEvent.callbackInvoked "id0" ∉ (processPending "d" (fun _ => SendOutcome.failure)
        ⟨[("d", ⟨"id0", false, false, false⟩)], ["id0"], []⟩).1 ∧
      (processPending "d" (fun _ => SendOutcome.failure)
        ⟨[("d", ⟨"id0", false, false, false⟩)], ["id0"], []⟩).2.callbacks = ["id0"] := by
  decide

/-! ## LibSessionUtil: config variants, kind mapping, initialization,
pending changes, markAsPushed -/

/-- `ConfigWrapperObjectTypes`: the four user-scoped config wrapper variants
plus the per-group meta wrappers (whose variant string embeds the group
pubkey). -/
inductive ConfigVariant
  | UserConfig
  | ContactsConfig
  | UserGroupsConfig
  | ConvoInfoVolatileConfig
  | MetaGroupConfig (groupPk : String)
deriving DecidableEq

/-- `isUserConfigWrapperType`. -/
def isUserConfigWrapperType : ConfigVariant → Bool
  | ConfigVariant.MetaGroupConfig _ => false
  | _ => true

/-- `isMetaWrapperType`. -/
def isMetaWrapperType : ConfigVariant → Bool
  | ConfigVariant.MetaGroupConfig _ => true
  | _ => false

/-- `LibSessionUtil.requiredUserVariants`. -/
def requiredUserVariants : List ConfigVariant :=
  [ConfigVariant.UserConfig, ConfigVariant.ContactsConfig,
    ConfigVariant.UserGroupsConfig, ConfigVariant.ConvoInfoVolatileConfig]

/-- Modelled from the spec: the wire kind tag
(`SignalService.SharedConfigMessage.Kind`) comes from the protobuf layer,
which is not among the provided sources; the spec names exactly the four wire
kinds corresponding to the four required user variants. -/
inductive SharedConfigKind
  | USER_PROFILE
  | CONTACTS
  | USER_GROUPS
  | CONVO_INFO_VOLATILE
deriving DecidableEq

/-- `kindToVariant`; the `default: assertUnreachable` branch is modelled as
`none` (in the source it throws an invariant-violation error instead of
returning). -/
def kindToVariant : SharedConfigKind → Option ConfigVariant
  | SharedConfigKind.USER_PROFILE => some ConfigVariant.UserConfig
  | SharedConfigKind.CONTACTS => some ConfigVariant.ContactsConfig
  | SharedConfigKind.USER_GROUPS => some ConfigVariant.UserGroupsConfig
  | SharedConfigKind.CONVO_INFO_VOLATILE => some ConfigVariant.ConvoInfoVolatileConfig

/-- `variantToKind`; the `default: assertUnreachable` branch (reached by every
non-user variant, e.g. a group meta wrapper) is modelled as `none`. -/
def variantToKind : ConfigVariant → Option SharedConfigKind
  | ConfigVariant.UserConfig => some SharedConfigKind.USER_PROFILE
  | ConfigVariant.ContactsConfig => some SharedConfigKind.CONTACTS
  | ConfigVariant.UserGroupsConfig => some SharedConfigKind.USER_GROUPS
  | ConfigVariant.ConvoInfoVolatileConfig => some SharedConfigKind.CONVO_INFO_VOLATILE
  | ConfigVariant.MetaGroupConfig _ => none

/-- One confirm call made to the merge engine by `markAsPushed`. -/
inductive EngineCall
  | confirmPushed (v : ConfigVariant) (seqno : Nat) (hash : String)
deriving DecidableEq

/-- `LibSessionUtil.markAsPushed`: the engine calls it performs, paired with
its result (`needsDump` answer, or the thrown error). -/
def markAsPushed (variant : ConfigVariant) (pubkey us : String) (seqno : Nat)
    (hash : String) (needsDump : ConfigVariant → Bool) :
    List EngineCall × Except String Bool :=
  if pubkey != us then
    ([], Except.error "FIXME, generic case is to be done")
  else
    ([EngineCall.confirmPushed variant seqno hash], Except.ok (needsDump variant))

/-- C6: `markAsPushed` for a non-local identity raises an error, having made
no call to the merge engine; for the local identity it calls `confirmPushed`
exactly once with exactly the (seqno, hash) pair given, and returns the
engine's `needsDump` answer unchanged. -/
theorem markAsPushed_spec (variant : ConfigVariant) (pubkey us : String) (seqno : Nat)
    (hash : String) (needsDump : ConfigVariant → Bool) :
    (pubkey ≠ us →
        markAsPushed variant pubkey us seqno hash needsDump =
          ([], Except.error "FIXME, generic case is to be done")) ∧
      (pubkey = us →
        markAsPushed variant pubkey us seqno hash needsDump =
          ([EngineCall.confirmPushed variant seqno hash],
            Except.ok (needsDump variant))) := by
  constructor
  · intro h
    simp [markAsPushed, h]
  · intro h
    simp [markAsPushed, h]

/-- Witness for `markAsPushed_spec`: both the rejected non-local call and the
accepted local call, on concrete inputs. -/
theorem markAsPushed_spec_witness :
    markAsPushed ConfigVariant.UserConfig "other" "us" 3 "h3" (fun _ => true) =
        ([], Except.error "FIXME, generic case is to be done") ∧
      markAsPushed ConfigVariant.UserConfig "us" "us" 3 "h3" (fun _ => true) =
        ([EngineCall.confirmPushed ConfigVariant.UserConfig 3 "h3"], Except.ok true) :=
  ⟨(markAsPushed_spec ConfigVariant.UserConfig "other" "us" 3 "h3" (fun _ => true)).1
      (by decide),
    (markAsPushed_spec ConfigVariant.UserConfig "us" "us" 3 "h3" (fun _ => true)).2 rfl⟩

/-- C8: the kind/variant mappings form a total bijection over the four user
variants; every non-user variant (a value outside that set) sent to
`variantToKind` hits the unreachable-assertion branch instead of returning a
kind, and `kindToVariant` is total on the four wire kinds (its unreachable
branch is dead). -/
theorem kind_variant_bijection :
    (∀ v : ConfigVariant, isUserConfigWrapperType v = true →
        ∃ k, variantToKind v = some k ∧ kindToVariant k = some v) ∧
      (∀ k : SharedConfigKind, ∃ v, kindToVariant k = some v ∧ variantToKind v = some k) ∧
      (∀ s : String, variantToKind (ConfigVariant.MetaGroupConfig s) = none) := by
  refine ⟨?_, ?_, fun s => rfl⟩
  · intro v hv
    cases v with
    | UserConfig => exact ⟨SharedConfigKind.USER_PROFILE, rfl, rfl⟩
    | ContactsConfig => exact ⟨SharedConfigKind.CONTACTS, rfl, rfl⟩
    | UserGroupsConfig => exact ⟨SharedConfigKind.USER_GROUPS, rfl, rfl⟩
    | ConvoInfoVolatileConfig => exact ⟨SharedConfigKind.CONVO_INFO_VOLATILE, rfl, rfl⟩
    | MetaGroupConfig s => simp [isUserConfigWrapperType] at hv
  · intro k
    cases k with
    | USER_PROFILE => exact ⟨ConfigVariant.UserConfig, rfl, rfl⟩
    | CONTACTS => exact ⟨ConfigVariant.ContactsConfig, rfl, rfl⟩
    | USER_GROUPS => exact ⟨ConfigVariant.UserGroupsConfig, rfl, rfl⟩
    | CONVO_INFO_VOLATILE => exact ⟨ConfigVariant.ConvoInfoVolatileConfig, rfl, rfl⟩

/-- Witness for `kind_variant_bijection` at a concrete user variant and a
concrete meta variant. -/
theorem kind_variant_bijection_witness :
    (∃ k, variantToKind ConfigVariant.UserConfig = some k ∧
        kindToVariant k = some ConfigVariant.UserConfig) ∧
      variantToKind (ConfigVariant.MetaGroupConfig "03aabb") = none :=
  ⟨kind_variant_bijection.1 ConfigVariant.UserConfig rfl,
    kind_variant_bijection.2.2 "03aabb"⟩

/-! ## initializeLibSessionUtilWrappers -/

/-- One persisted config dump row, as returned by
`ConfigDumpData.getAllDumpsWithData`. -/
structure ConfigDump where
  publicKey : String
  variant : ConfigVariant
  hasData : Bool
deriving DecidableEq

/-- The external collaborators of initialization: whether the account's
ed25519 keypair (with private-key bytes) is available, and whether each merge
engine `init` call settles successfully (from a stored dump for user
variants, fresh for missing required variants, and per group pubkey for the
meta wrappers). -/
structure InitEnv where
  hasKeypair : Bool
  initFromDumpOk : ConfigVariant → Bool
  initFreshOk : ConfigVariant → Bool
  metaInitOk : String → Bool

/-- Observable events of initialization. -/
inductive InitEvent
  /-- `GenericWrapperActions.init` of this user variant succeeded. -/
  | userInited (v : ConfigVariant)
  /-- a fresh dump for this missing required variant was persisted. -/
  | dumpSaved (v : ConfigVariant)
  /-- `MetaGroupWrapperActions.init` of this group succeeded. -/
  | metaInited (groupPk : String)
  /-- `MetaGroupWrapperActions.init` of this group failed; logged and skipped. -/
  | metaInitFailed (groupPk : String)
deriving DecidableEq

/-- First loop of `initializeLibSessionUtilWrappers`: load every user-variant
dump into its wrapper.  A failure here is rethrown
(`throw new Error(...)`), aborting the whole initialization.  Returns the set
of variants built without errors and the events. -/
def initUserDumpsLoop (env : InitEnv) :
    List ConfigDump → Except String (List ConfigVariant × List InitEvent)
  | [] => Except.ok ([], [])
  | d :: rest =>
    if !isUserConfigWrapperType d.variant then
      initUserDumpsLoop env rest
    else if env.initFromDumpOk d.variant then
      match initUserDumpsLoop env rest with
      | Except.ok (built, evs) =>
        Except.ok (d.variant :: built, InitEvent.userInited d.variant :: evs)
      | Except.error e => Except.error e
    else
      Except.error "initializeLibSessionUtilWrappers failed"

/-- Second loop: initialize each missing required variant fresh and persist an
empty dump for it.  This `init` call is not wrapped in a try/catch, so a
failure propagates. -/
def initMissingLoop (env : InitEnv) :
    List ConfigVariant → Except String (List InitEvent)
  | [] => Except.ok []
  | v :: rest =>
    if env.initFreshOk v then
      match initMissingLoop env rest with
      | Except.ok evs =>
        Except.ok (InitEvent.userInited v :: InitEvent.dumpSaved v :: evs)
      | Except.error e => Except.error e
    else
      Except.error "initializeLibSessionUtilWrappers missing variant init failed"

/-- Third loop: initialize each group meta wrapper from its dump; a failure is
caught (logged) and the loop continues with the other groups. -/
def initMetaLoop (env : InitEnv) : List ConfigDump → List InitEvent
  | [] => []
  | d :: rest =>
    match d.variant with
    | ConfigVariant.MetaGroupConfig pk =>
      (if env.metaInitOk pk then InitEvent.metaInited pk
        else InitEvent.metaInitFailed pk) :: initMetaLoop env rest
    | _ => initMetaLoop env rest

/-- `initializeLibSessionUtilWrappers`: fatal without the account keypair;
loads user dumps (failures rethrown), creates missing required variants
(failures propagate), re-checks the keypair, then loads the group meta
wrappers (failures isolated). -/
def initializeLibSessionUtilWrappers (env : InitEnv) (dumps : List ConfigDump) :
    Except String (List InitEvent) :=
  if !env.hasKeypair then
    Except.error "edkeypair not found for current user"
  else
    match initUserDumpsLoop env dumps with
    | Except.error e => Except.error e
    | Except.ok (built, evs1) =>
      match initMissingLoop env (requiredUserVariants.filter (fun v => !built.contains v)) with
      | Except.error e => Except.error e
      | Except.ok evs2 =>
        if !env.hasKeypair then
          Except.error "user has no ed25519KeyPairBytes."
        else
          Except.ok (evs1 ++ evs2 ++ initMetaLoop env dumps)

/-- C1, counterexample: the claim says a user-scoped variant whose dump fails
to initialize is isolated and does not propagate; but with the keypair present
and a `UserConfig` dump whose init fails, the whole initialization aborts with
an error — the group meta dump that would have initialized successfully is
never reached and no variant completes. -/
theorem init_userDump_failure_propagates :
    initializeLibSessionUtilWrappers
        ⟨true, fun _ => false, fun _ => true, fun _ => true⟩
        [⟨"us", ConfigVariant.UserConfig, true⟩,
          ⟨"03g", ConfigVariant.MetaGroupConfig "03g", true⟩] =
      Except.error "initializeLibSessionUtilWrappers failed" := rfl

theorem initUserDumpsLoop_ok (env : InitEnv) (l : List ConfigDump)
    (h : ∀ d ∈ l, isUserConfigWrapperType d.variant = true →
      env.initFromDumpOk d.variant = true) :
    ∃ built evs, initUserDumpsLoop env l = Except.ok (built, evs) ∧
      (∀ d ∈ l, isUserConfigWrapperType d.variant = true → d.variant ∈ built) ∧
      (∀ v ∈ built, InitEvent.userInited v ∈ evs) := by
  induction l with
  | nil => exact ⟨[], [], rfl, by simp, by simp⟩
  | cons d rest ih =>
    have hrest : ∀ d' ∈ rest, isUserConfigWrapperType d'.variant = true →
        env.initFromDumpOk d'.variant = true :=
      fun d' hd' => h d' (by simp [hd'])
    obtain ⟨built, evs, heq, hmem, hin⟩ := ih hrest
    cases hu : isUserConfigWrapperType d.variant with
    | false =>
      refine ⟨built, evs, ?_, ?_, hin⟩
      · simp [initUserDumpsLoop, hu, heq]
      · intro d' hd' hu'
        rcases List.mem_cons.mp hd' with rfl | hd'
        · rw [hu] at hu'
          exact absurd hu' (by simp)
        · exact hmem d' hd' hu'
    | true =>
      have hok : env.initFromDumpOk d.variant = true := h d (by simp) hu
      refine ⟨d.variant :: built, InitEvent.userInited d.variant :: evs, ?_, ?_, ?_⟩
      · simp [initUserDumpsLoop, hu, hok, heq]
      · intro d' hd' hu'
        rcases List.mem_cons.mp hd' with rfl | hd'
        · simp
        · simp [hmem d' hd' hu']
      · intro v hv
        rcases List.mem_cons.mp hv with rfl | hv
        · simp
        · simp [hin v hv]

theorem initMissingLoop_ok (env : InitEnv) (l : List ConfigVariant)
    (h : ∀ v ∈ l, env.initFreshOk v = true) :
    ∃ evs, initMissingLoop env l = Except.ok evs ∧
      ∀ v ∈ l, InitEvent.userInited v ∈ evs := by
  induction l with
  | nil => exact ⟨[], rfl, by simp⟩
  | cons v rest ih =>
    have hrest : ∀ v' ∈ rest, env.initFreshOk v' = true :=
      fun v' hv' => h v' (by simp [hv'])
    obtain ⟨evs, heq, hin⟩ := ih hrest
    have hok : env.initFreshOk v = true := h v (by simp)
    refine ⟨InitEvent.userInited v :: InitEvent.dumpSaved v :: evs, ?_, ?_⟩
    · simp [initMissingLoop, hok, heq]
    · intro v' hv'
      rcases List.mem_cons.mp hv' with rfl | hv'
      · simp
      · simp [hin v' hv']

theorem initMetaLoop_mem (env : InitEnv) (l : List ConfigDump) :
    ∀ pk, (∃ d ∈ l, d.variant = ConfigVariant.MetaGroupConfig pk) →
      (env.metaInitOk pk = true → InitEvent.metaInited pk ∈ initMetaLoop env l) ∧
      (env.metaInitOk pk = false → InitEvent.metaInitFailed pk ∈ initMetaLoop env l) := by
  induction l with
  | nil =>
    rintro pk ⟨d, hd, _⟩
    simp at hd
  | cons d rest ih =>
    rintro pk ⟨d', hd', hv⟩
    rcases List.mem_cons.mp hd' with rfl | hd'
    · constructor
      · intro hm
        simp [initMetaLoop, hv, hm]
      · intro hm
        simp [initMetaLoop, hv, hm]
    · have := ih pk ⟨d', hd', hv⟩
      constructor
      · intro hm
        cases hdv : d.variant <;> simp [initMetaLoop, hdv, this.1 hm]
      · intro hm
        cases hdv : d.variant <;> simp [initMetaLoop, hdv, this.2 hm]

/-- C1, amended: absence of the account's signing key is fatal, and so is a
user-scoped variant whose dump fails to initialize (the error is rethrown and
aborts everything); only group-scoped (meta wrapper) init failures are
isolated: with the keypair present and all user-variant inits succeeding,
initialization completes even when some groups fail, every group dump is
attempted (succeeding or being logged as failed), every user dump is loaded
and every required variant initialized. -/
theorem init_group_failures_isolated (env : InitEnv) (dumps : List ConfigDump)
    (hk : env.hasKeypair = true)
    (hdump : ∀ d ∈ dumps, isUserConfigWrapperType d.variant = true →
      env.initFromDumpOk d.variant = true)
    (hfresh : ∀ v : ConfigVariant, env.initFreshOk v = true) :
    ∃ evs, initializeLibSessionUtilWrappers env dumps = Except.ok evs ∧
      (∀ pk, (∃ d ∈ dumps, d.variant = ConfigVariant.MetaGroupConfig pk) →
        (env.metaInitOk pk = true → InitEvent.metaInited pk ∈ evs) ∧
        (env.metaInitOk pk = false → InitEvent.metaInitFailed pk ∈ evs)) ∧
      (∀ d ∈ dumps, isUserConfigWrapperType d.variant = true →
        InitEvent.userInited d.variant ∈ evs) ∧
      (∀ v ∈ requiredUserVariants, InitEvent.userInited v ∈ evs) := by
  obtain ⟨built, evs1, heq1, hmem1, hin1⟩ := initUserDumpsLoop_ok env dumps hdump
  obtain ⟨evs2, heq2, hin2⟩ := initMissingLoop_ok env
    (requiredUserVariants.filter (fun v => !built.contains v)) (fun v _ => hfresh v)
  refine ⟨evs1 ++ evs2 ++ initMetaLoop env dumps, ?_, ?_, ?_, ?_⟩
  · simp at heq2
    simp [initializeLibSessionUtilWrappers, hk, heq1, heq2]
  · intro pk hpk
    have := initMetaLoop_mem env dumps pk hpk
    exact ⟨fun hm => by simp [this.1 hm], fun hm => by simp [this.2 hm]⟩
  · intro d hd hu
    have : InitEvent.userInited d.variant ∈ evs1 := hin1 _ (hmem1 d hd hu)
    simp [this]
  · intro v hv
    by_cases hb : v ∈ built
    · have : InitEvent.userInited v ∈ evs1 := hin1 v hb
      simp [this]
    · have hf : v ∈ requiredUserVariants.filter (fun v => !built.contains v) := by
        rw [List.mem_filter]
        exact ⟨hv, by simpa using hb⟩
      have : InitEvent.userInited v ∈ evs2 := hin2 v hf
      simp [this]

/-- Witness for `init_group_failures_isolated`: one user dump, one group that
initializes and one group whose init fails. -/
theorem init_group_failures_isolated_witness :
    ∃ evs, initializeLibSessionUtilWrappers
        ⟨true, fun _ => true, fun _ => true, fun pk => pk == "03ok"⟩
        [⟨"us", ConfigVariant.UserConfig, true⟩,
          ⟨"03ok", ConfigVariant.MetaGroupConfig "03ok", true⟩,
          ⟨"03bad", ConfigVariant.MetaGroupConfig "03bad", true⟩] = Except.ok evs ∧
      (∀ pk, (∃ d ∈ [ConfigDump.mk "us" ConfigVariant.UserConfig true,
            ConfigDump.mk "03ok" (ConfigVariant.MetaGroupConfig "03ok") true,
            ConfigDump.mk "03bad" (ConfigVariant.MetaGroupConfig "03bad") true],
          d.variant = ConfigVariant.MetaGroupConfig pk) →
        ((fun pk => pk == "03ok") pk = true → InitEvent.metaInited pk ∈ evs) ∧
        ((fun pk => pk == "03ok") pk = false → InitEvent.metaInitFailed pk ∈ evs)) ∧
      (∀ d ∈ [ConfigDump.mk "us" ConfigVariant.UserConfig true,
            ConfigDump.mk "03ok" (ConfigVariant.MetaGroupConfig "03ok") true,
            ConfigDump.mk "03bad" (ConfigVariant.MetaGroupConfig "03bad") true],
        isUserConfigWrapperType d.variant = true →
          InitEvent.userInited d.variant ∈ evs) ∧
      (∀ v ∈ requiredUserVariants, InitEvent.userInited v ∈ evs) :=
  init_group_failures_isolated
    ⟨true, fun _ => true, fun _ => true, fun pk => pk == "03ok"⟩
    [⟨"us", ConfigVariant.UserConfig, true⟩,
      ⟨"03ok", ConfigVariant.MetaGroupConfig "03ok", true⟩,
      ⟨"03bad", ConfigVariant.MetaGroupConfig "03bad", true⟩]
    rfl (fun _ _ _ => rfl) (fun _ => rfl)

/-! ## pendingChangesForPubkey -/

/-- One dump row as returned by `ConfigDumpData.getAllDumpsWithoutData`
(metadata only). -/
structure DumpMeta where
  publicKey : String
  variant : ConfigVariant
deriving DecidableEq

/-- What `GenericWrapperActions.push` returns for a variant. -/
structure PushResult where
  data : List Nat
  seqno : Nat
  hashes : List String
deriving DecidableEq

/-- The `SharedConfigMessage` constructed by `pendingChangesForPubkey`. -/
structure SharedConfigMessage where
  data : List Nat
  kind : SharedConfigKind
  seqno : Nat
  timestamp : Nat
deriving DecidableEq

/-- `OutgoingConfResult` (the source's `namespace` field is named
`destNamespace` here because `namespace` is a Lean keyword). -/
structure OutgoingConfResult where
  message : SharedConfigMessage
  destNamespace : Nat
  oldMessageHashes : List String
deriving DecidableEq

/-- The merge-engine capabilities `pendingChangesForPubkey` consults, per
variant: `needsPush`, `push` and `storageNamespace`. -/
structure UserConfigEngine where
  needsPush : ConfigVariant → Bool
  push : ConfigVariant → PushResult
  storageNamespace : ConfigVariant → Nat

/-- The dump list after the first-launch synthesis step: when `pubkey` is our
own, a placeholder entry is appended for each required user variant that has
no dump row yet. -/
def effectiveDumps (pubkey us : String) (dumps : List DumpMeta) : List DumpMeta :=
  if pubkey == us then
    dumps ++ (requiredUserVariants.filter
        (fun v => !dumps.any (fun m => m.publicKey == us && m.variant == v))).map
      (fun v => ⟨us, v⟩)
  else
    dumps

/-- The loop body of `pendingChangesForPubkey` for one dump row: non-user
variants are skipped (the group case is logged as to-do), clean variants are
skipped, and a dirty variant produces one `OutgoingConfResult` from the
engine's push.  (`variantToKind` is always `some` for a user variant, so the
`none` arm is dead code.) -/
def confResultFor (eng : UserConfigEngine) (now : Nat) (d : DumpMeta) :
    Option OutgoingConfResult :=
  if !isUserConfigWrapperType d.variant then none
  else if !eng.needsPush d.variant then none
  else
    match variantToKind d.variant with
    | some kind =>
      some { message := { data := (eng.push d.variant).data, kind := kind,
                          seqno := (eng.push d.variant).seqno, timestamp := now },
             destNamespace := eng.storageNamespace d.variant,
             oldMessageHashes := (eng.push d.variant).hashes }
    | none => none

/-- `LibSessionUtil.pendingChangesForPubkey`. -/
def pendingChangesForPubkey (pubkey us : String) (dumps : List DumpMeta)
    (eng : UserConfigEngine) (now : Nat) : List OutgoingConfResult :=
  (effectiveDumps pubkey us dumps).filterMap (confResultFor eng now)

theorem variantToKind_inj (v1 v2 : ConfigVariant) (k : SharedConfigKind)
    (h1 : variantToKind v1 = some k) (h2 : variantToKind v2 = some k) : v1 = v2 := by
  cases v1 <;> cases v2 <;> simp_all [variantToKind] <;> (subst h1; simp at h2)

theorem confResultFor_some (eng : UserConfigEngine) (now : Nat) (d : DumpMeta)
    (r : OutgoingConfResult) (h : confResultFor eng now d = some r) :
    isUserConfigWrapperType d.variant = true ∧ eng.needsPush d.variant = true ∧
      variantToKind d.variant = some r.message.kind ∧
      r.message.seqno = (eng.push d.variant).seqno ∧
      r.oldMessageHashes = (eng.push d.variant).hashes := by
  by_cases hu : isUserConfigWrapperType d.variant = true
  · by_cases hnp : eng.needsPush d.variant = true
    · rcases hkv : variantToKind d.variant with _ | k'
      · simp [confResultFor, hu, hnp, hkv] at h
      · simp only [confResultFor, hu, hnp, hkv, Bool.not_true, Bool.false_eq_true,
          if_false, Option.some.injEq] at h
        subst h
        exact ⟨hu, hnp, rfl, rfl, rfl⟩
    · simp [confResultFor, hu, hnp] at h
  · simp [confResultFor, hu] at h

theorem countP_confResults (eng : UserConfigEngine) (now : Nat) (v : ConfigVariant)
    (k : SharedConfigKind) (hk : variantToKind v = some k)
    (hdirty : eng.needsPush v = true) (l : List DumpMeta) :
    (l.filterMap (confResultFor eng now)).countP (fun r => r.message.kind == k) =
      l.countP (fun d => d.variant == v) := by
  have hv : isUserConfigWrapperType v = true := by
    cases v <;> simp_all [variantToKind, isUserConfigWrapperType]
  induction l with
  | nil => rfl
  | cons d rest ih =>
    by_cases hdv : d.variant = v
    · have h1 : confResultFor eng now d = some
          { message := { data := (eng.push v).data, kind := k,
                         seqno := (eng.push v).seqno, timestamp := now },
            destNamespace := eng.storageNamespace v,
            oldMessageHashes := (eng.push v).hashes } := by
        simp [confResultFor, hdv, hv, hdirty, hk]
      simp [List.filterMap_cons, h1, List.countP_cons, ih, hdv]
    · rcases hres : confResultFor eng now d with _ | r
      · have hbe : (d.variant == v) = false := by
          simp [hdv]
        simp [List.filterMap_cons, hres, List.countP_cons, ih, hbe]
      · obtain ⟨hu, hnp, hkd, _, _⟩ := confResultFor_some eng now d r hres
        have hne : r.message.kind ≠ k := by
          intro he
          exact hdv (variantToKind_inj d.variant v k (by rw [hkd, he]) hk)
        have hbe1 : (r.message.kind == k) = false := by
          simp [hne]
        have hbe2 : (d.variant == v) = false := by
          simp [hdv]
        simp [List.filterMap_cons, hres, List.countP_cons, ih, hbe1, hbe2]

theorem effectiveDumps_count (pubkey us : String) (dumps : List DumpMeta)
    (v : ConfigVariant) (hv : isUserConfigWrapperType v = true)
    (huser : ∀ d ∈ dumps, isUserConfigWrapperType d.variant = true → d.publicKey = us)
    (hnodup : dumps.countP (fun d => d.variant == v) ≤ 1)
    (hpresent : pubkey = us ∨ ∃ d ∈ dumps, d.variant = v) :
    (effectiveDumps pubkey us dumps).countP (fun d => d.variant == v) = 1 := by
  by_cases hpu : pubkey = us
  · by_cases hex : ∃ d ∈ dumps, d.variant = v
    · obtain ⟨d0, hd0, hdv0⟩ := hex
      have hpk0 : d0.publicKey = us := huser d0 hd0 (by rw [hdv0]; exact hv)
      have hany : dumps.any (fun m => m.publicKey == us && m.variant == v) = true := by
        rw [List.any_eq_true]
        exact ⟨d0, hd0, by simp [hpk0, hdv0]⟩
      have hc1 : 0 < dumps.countP (fun d => d.variant == v) :=
        List.countP_pos_iff.mpr ⟨d0, hd0, by simp [hdv0]⟩
      have heq : dumps.countP (fun d => d.variant == v) = 1 :=
        Nat.le_antisymm hnodup hc1
      have hsynth : ((requiredUserVariants.filter
          (fun v' => !dumps.any (fun m => m.publicKey == us && m.variant == v'))).map
            (fun v' => (⟨us, v'⟩ : DumpMeta))).countP (fun d => d.variant == v) = 0 := by
        rw [List.countP_map, List.countP_eq_zero]
        intro v' hv'
        rw [List.mem_filter] at hv'
        intro hbe
        have hvv : v' = v := by
          simpa using hbe
        subst hvv
        rw [hany] at hv'
        simp at hv'
      simp [effectiveDumps, hpu, List.countP_append, heq, hsynth]
    · have hc0 : dumps.countP (fun d => d.variant == v) = 0 := by
        rw [List.countP_eq_zero]
        intro d hd hbe
        exact hex ⟨d, hd, by simpa using hbe⟩
      have hany : dumps.any (fun m => m.publicKey == us && m.variant == v) = false := by
        by_contra hc
        rw [Bool.not_eq_false, List.any_eq_true] at hc
        obtain ⟨m, hm, hmp⟩ := hc
        have : m.variant = v := by
          rw [Bool.and_eq_true] at hmp
          simpa using hmp.2
        exact hex ⟨m, hm, this⟩
      have hsynth : ((requiredUserVariants.filter
          (fun v' => !dumps.any (fun m => m.publicKey == us && m.variant == v'))).map
            (fun v' => (⟨us, v'⟩ : DumpMeta))).countP (fun d => d.variant == v) = 1 := by
        rw [List.countP_map, List.countP_filter]
        cases v <;> simp_all [requiredUserVariants, isUserConfigWrapperType]
      simp [effectiveDumps, hpu, List.countP_append, hc0, hsynth]
  · rcases hpresent with h | hex
    · exact absurd h hpu
    · obtain ⟨d0, hd0, hdv0⟩ := hex
      have hc1 : 0 < dumps.countP (fun d => d.variant == v) :=
        List.countP_pos_iff.mpr ⟨d0, hd0, by simp [hdv0]⟩
      have heq : dumps.countP (fun d => d.variant == v) = 1 :=
        Nat.le_antisymm hnodup hc1
      simpa [effectiveDumps, hpu] using heq

/-- C5: a user-scoped variant the merge engine reports dirty yields exactly
one `OutgoingConfResult` per call, carrying the sequence number and the
superseded-hash list exactly as returned by the engine's push; for the local
account the variant is always checked (placeholders are synthesized for
required variants with no dump yet), and otherwise the variant's dump row must
be present.  The hypotheses state the storage invariant that user-variant dump
rows belong to the local account and are unique per variant. -/
theorem pendingChanges_dirty_variant (pubkey us : String) (dumps : List DumpMeta)
    (eng : UserConfigEngine) (now : Nat) (v : ConfigVariant) (k : SharedConfigKind)
    (hk : variantToKind v = some k)
    (hdirty : eng.needsPush v = true)
    (huser : ∀ d ∈ dumps, isUserConfigWrapperType d.variant = true → d.publicKey = us)
    (hnodup : dumps.countP (fun d => d.variant == v) ≤ 1)
    (hpresent : pubkey = us ∨ ∃ d ∈ dumps, d.variant = v) :
    (pendingChangesForPubkey pubkey us dumps eng now).countP
        (fun r => r.message.kind == k) = 1 ∧
      ∀ r ∈ pendingChangesForPubkey pubkey us dumps eng now, r.message.kind = k →
        r.message.seqno = (eng.push v).seqno ∧
          r.oldMessageHashes = (eng.push v).hashes := by
  have hv : isUserConfigWrapperType v = true := by
    cases v <;> simp_all [variantToKind, isUserConfigWrapperType]
  constructor
  · rw [pendingChangesForPubkey, countP_confResults eng now v k hk hdirty]
    exact effectiveDumps_count pubkey us dumps v hv huser hnodup hpresent
  · intro r hr hrk
    rw [pendingChangesForPubkey, List.mem_filterMap] at hr
    obtain ⟨d, hd, hres⟩ := hr
    obtain ⟨hu, hnp, hkd, hseq, hhash⟩ := confResultFor_some eng now d r hres
    have hdv : d.variant = v := variantToKind_inj d.variant v k (by rw [hkd, hrk]) hk
    rw [hdv] at hseq hhash
    exact ⟨hseq, hhash⟩

/-- A concrete merge engine used by the witness below: every variant dirty,
pushing seqno 7 with data `[1]` and superseded hash list `["h1"]`. -/
def witnessEngine : UserConfigEngine :=
  ⟨fun _ => true, fun _ => ⟨[1], 7, ["h1"]⟩, fun _ => 2⟩

/-- Witness for `pendingChanges_dirty_variant`: first-run case (no dumps at
all) for the local account; the dirty `UserConfig` variant appears exactly
once with the engine's seqno and hashes. -/
theorem pendingChanges_dirty_variant_witness :
    (pendingChangesForPubkey "us" "us" [] witnessEngine 9).countP
        (fun r => r.message.kind == SharedConfigKind.USER_PROFILE) = 1 ∧
      ∀ r ∈ pendingChangesForPubkey "us" "us" [] witnessEngine 9,
        r.message.kind = SharedConfigKind.USER_PROFILE →
          r.message.seqno = (witnessEngine.push ConfigVariant.UserConfig).seqno ∧
            r.oldMessageHashes = (witnessEngine.push ConfigVariant.UserConfig).hashes :=
  pendingChanges_dirty_variant "us" "us" [] witnessEngine 9 ConfigVariant.UserConfig
    SharedConfigKind.USER_PROFILE rfl rfl (by simp) (by simp) (Or.inl rfl)
